/-
Verification of the VCF filtering engine of `sequana/vcf_filter.py`
(class `VCF_mpileup_4dot1`) against its natural-language specification.

The Python code is shallowly embedded: Python `str` becomes `List Char`,
Python numbers become `ℚ`, raised exceptions become `Except.error`,
and the record / configuration objects become Lean structures.
-/
import Mathlib

set_option maxRecDepth 4000

/-- A Python string, modelled as its list of characters. -/
abbrev Str := List Char

/-- Python `c in s` for a single character `c`. -/
def hasChar (s : Str) (c : Char) : Bool :=
  s.any (fun x => x = c)

/-- Python `s.split(sep)` for a one-character separator: splits on every
occurrence; always returns at least one (possibly empty) part. -/
def splitOnChar (c : Char) : Str → List Str
  | [] => [[]]
  | x :: xs =>
    if x = c then [] :: splitOnChar c xs
    else
      match splitOnChar c xs with
      | [] => [[x]]
      | h :: t => (x :: h) :: t

/-- Python `s.split(sep, 1)` when `sep` occurs in `s`: the parts before and
after the first occurrence. -/
def splitFirstChar (c : Char) : Str → Str × Str
  | [] => ([], [])
  | x :: xs =>
    if x = c then ([], xs)
    else
      let p := splitFirstChar c xs
      (x :: p.1, p.2)

/-- The characters Python `str.strip()` removes. -/
def pyIsSpace (c : Char) : Bool :=
  c = ' ' || c = '\t' || c = '\n' || c = '\r' || c = '\x0b' || c = '\x0c'

/-- Python `s.lstrip()`. -/
def stripLeft : Str → Str
  | [] => []
  | c :: cs => if pyIsSpace c then stripLeft cs else c :: cs

/-- Python `s.strip()`: drop leading and trailing whitespace. -/
def strip (s : Str) : Str :=
  ((stripLeft ((stripLeft s).reverse)).reverse)

/-- Python `s.startswith(c)` for a single-character prefix. -/
def startsWith1 (c : Char) : Str → Bool
  | x :: _ => x = c
  | [] => false

/-- Python `s.startswith(cd)` for a two-character prefix. -/
def startsWith2 (c d : Char) : Str → Bool
  | x :: y :: _ => x = c && y = d
  | _ => false

/-- Python `s.startswith(p)` for an arbitrary prefix `p`. -/
def startsWithStr (p s : Str) : Bool :=
  s.take p.length = p

/-- Python `s.replace(c, "")`: remove every occurrence of the character. -/
def removeChar (c : Char) (s : Str) : Str :=
  s.filter (fun x => x ≠ c)

/-- Every character is a decimal digit. -/
def allDigits (s : Str) : Bool :=
  s.all (fun c => c.isDigit)

/-- Value of a string of decimal digits. -/
def digitsToNat (s : Str) : Nat :=
  s.foldl (fun acc c => acc * 10 + (c.toNat - 48)) 0

/-- Model of Python `float(s)` on an unsigned decimal numeral
`digits [ '.' digits ]` (at least one digit overall). -/
def parseDecimal (s : Str) : Option ℚ :=
  match splitOnChar '.' s with
  | [ip] => if allDigits ip && !ip.isEmpty then some (digitsToNat ip) else none
  | [ip, fp] =>
    if allDigits ip && allDigits fp && (!ip.isEmpty || !fp.isEmpty) then
      some ((digitsToNat ip : ℚ) + (digitsToNat fp : ℚ) / (10 : ℚ) ^ fp.length)
    else none
  | _ => none

/-- Model of Python `float(s)`: optional sign, then a decimal numeral.
`none` models a raised `ValueError`. -/
def parseFloat (s : Str) : Option ℚ :=
  match s with
  | '-' :: rest => (parseDecimal rest).map (fun q => -q)
  | '+' :: rest => parseDecimal rest
  | _ => parseDecimal s

/-- Model of Python `int(s)`: optional sign, then digits.
`none` models a raised `ValueError`. -/
def parsePyInt (s : Str) : Option Int :=
  match s with
  | '-' :: rest =>
    if allDigits rest && !rest.isEmpty then some (-(digitsToNat rest : Int)) else none
  | '+' :: rest =>
    if allDigits rest && !rest.isEmpty then some ((digitsToNat rest : Int)) else none
  | _ => if allDigits s && !s.isEmpty then some ((digitsToNat s : Int)) else none

/- Basic lemmas about the string model. -/

theorem splitOnChar_ne_nil (c : Char) (s : Str) : splitOnChar c s ≠ [] := by
  induction s with
  | nil => simp [splitOnChar]
  | cons x xs ih =>
    simp only [splitOnChar]
    split
    · simp
    · cases h : splitOnChar c xs with
      | nil => simp
      | cons h t => simp

theorem splitOnChar_eq_single {c : Char} {s a : Str}
    (h : splitOnChar c s = [a]) : a = s := by
  induction s generalizing a with
  | nil => simp [splitOnChar] at h; exact h
  | cons x xs ih =>
    simp only [splitOnChar] at h
    split at h
    · next hx =>
      cases hs : splitOnChar c xs with
      | nil => exact absurd hs (splitOnChar_ne_nil c xs)
      | cons p t =>
        rw [hs] at h
        simp at h
    · next hx =>
      cases hs : splitOnChar c xs with
      | nil => exact absurd hs (splitOnChar_ne_nil c xs)
      | cons p t =>
        rw [hs] at h
        simp at h
        obtain ⟨h1, h2⟩ := h
        subst h2
        have := ih (a := p) (by rw [hs])
        simp [← h1, this]

theorem splitOnChar_two_length {c : Char} {s a b : Str}
    (h : splitOnChar c s = [a, b]) : a.length + b.length + 1 = s.length := by
  induction s generalizing a b with
  | nil => simp [splitOnChar] at h
  | cons x xs ih =>
    simp only [splitOnChar] at h
    split at h
    · next hx =>
      cases hs : splitOnChar c xs with
      | nil => exact absurd hs (splitOnChar_ne_nil c xs)
      | cons p t =>
        rw [hs] at h
        simp at h
        obtain ⟨ha, hp, ht⟩ := h
        subst ht
        subst hp
        have hbx : p = xs := splitOnChar_eq_single hs
        subst hbx
        simp [← ha]
    · next hx =>
      cases hs : splitOnChar c xs with
      | nil => exact absurd hs (splitOnChar_ne_nil c xs)
      | cons p t =>
        rw [hs] at h
        simp at h
        obtain ⟨ha, ht⟩ := h
        subst ht
        have := ih (a := p) (b := b) hs
        simp [← ha]
        omega

theorem stripLeft_length_le (s : Str) : (stripLeft s).length ≤ s.length := by
  induction s with
  | nil => simp [stripLeft]
  | cons c cs ih =>
    simp only [stripLeft]
    split
    · exact Nat.le_trans ih (by simp)
    · simp

theorem strip_length_le (s : Str) : (strip s).length ≤ s.length := by
  unfold strip
  calc ((stripLeft ((stripLeft s).reverse)).reverse).length
      = (stripLeft ((stripLeft s).reverse)).length := by simp
    _ ≤ ((stripLeft s).reverse).length := stripLeft_length_le _
    _ = (stripLeft s).length := by simp
    _ ≤ s.length := stripLeft_length_le s

/- ### Data model of the engine (from `sequana/vcf_filter.py`) -/

/-- A value stored in a VCF record's INFO mapping: a numeric scalar, a
list of numbers (e.g. `DP4`), or a boolean flag (e.g. `INDEL`).
Python treats `bool` as the integers 0/1 in comparisons. -/
inductive InfoValue where
  | scalar : ℚ → InfoValue
  | seq : List ℚ → InfoValue
  | flag : Bool → InfoValue
deriving DecidableEq

/-- Python truthiness of an INFO value (`if variant.INFO['INDEL']:`). -/
def truthy : InfoValue → Bool
  | .scalar q => q ≠ 0
  | .seq l => !l.isEmpty
  | .flag b => b

/-- A numeric view of a non-list INFO value (Python compares `bool`
as 0/1). -/
def scalarNum : InfoValue → ℚ
  | .scalar q => q
  | .flag b => if b then 1 else 0
  | .seq _ => 0

/-- A VCF record as the filter sees it: `QUAL`, the `REF` string, the
`ALT` allele list (an entry is `none` for the missing marker), and the
ordered `INFO` mapping.  (PyVCF guarantees `ALT` is non-empty and `REF`
a non-empty string; `QUAL` is taken numeric.) -/
structure Record where
  QUAL : ℚ
  REF : Str
  ALT : List (Option Str)
  INFO : List (Str × InfoValue)

/-- `variant.ALT[0]`. -/
def alt0 (r : Record) : Option Str :=
  r.ALT.headD none

/-- Lookup in the INFO association list (`vcf_line.INFO[key]`,
`key in vcf_line.INFO`). -/
def lookupInfo : List (Str × InfoValue) → Str → Option InfoValue
  | [], _ => none
  | (k, v) :: rest, key => if k = key then some v else lookupInfo rest key

/-- The engine's configuration: the `filter_dict` (`QUAL` threshold and the
insertion-ordered `INFO` rules) together with the instance attributes set
in `VCF_mpileup_4dot1.__init__`. -/
structure FilterConfig where
  qual : ℚ
  infoRules : List (Str × Str)
  apply_dp4_filter : Bool
  apply_af1_filter : Bool
  apply_indel_filter : Bool
  dp4_minimum_depth : ℚ
  dp4_minimum_depth_strand : ℚ
  dp4_minimum_ratio : ℚ
  minimum_af1 : ℚ

/-- The defaults set in `VCF_mpileup_4dot1.__init__`: QUAL sentinel `-1`,
no INFO rules, all hard-coded filters off, `dp4_minimum_depth=4`,
`dp4_minimum_depth_strand=2`, `dp4_minimum_ratio=0.75`, `minimum_af1=0.95`. -/
def defaultConfig : FilterConfig where
  qual := -1
  infoRules := []
  apply_dp4_filter := false
  apply_af1_filter := false
  apply_indel_filter := false
  dp4_minimum_depth := 4
  dp4_minimum_depth_strand := 2
  dp4_minimum_ratio := 3 / 4
  minimum_af1 := 19 / 20

/-- Counts returned by `filter_vcf`: `{"N": N, "filtered": ..,
"unfiltered": ..}`. -/
structure FilterResult where
  N : Nat
  filtered : Nat
  unfiltered : Nat
deriving DecidableEq

/- ### The threshold-expression evaluator `_filter_info_field` -/

/-- `VCF_mpileup_4dot1._filter_info_field(info_value, threshold)`.
Returns `true` when the value matches the threshold expression (so the
variant is to be filtered out by the caller).  Splits on every `&` (then
on every `|`), unpacking into exactly two sides as Python's
`exp1, exp2 = threshold.split("&")` does (`Except.error` models the
`ValueError` when the number of parts is not two); each side is stripped
and evaluated recursively, combined with Python's short-circuit
`and` / `or`.  A clause starting with `<`, `<=`, `>`, `>=` compares
against `float(...)` of the remainder (`Except.error` models the
`ValueError` of a failed `float(...)`); any other clause falls through
to `return False`. -/
def filter_info_field (info_value : ℚ) (threshold : Str) : Except String Bool :=
  if hasChar threshold '&' then
    match hsplit : splitOnChar '&' threshold with
    | [exp1, exp2] =>
      match filter_info_field info_value (strip exp1) with
      | .error e => .error e
      | .ok false => .ok false
      | .ok true => filter_info_field info_value (strip exp2)
    | _ => .error "ValueError: unpack"
  else if hasChar threshold '|' then
    match hsplit : splitOnChar '|' threshold with
    | [exp1, exp2] =>
      match filter_info_field info_value (strip exp1) with
      | .error e => .error e
      | .ok true => .ok true
      | .ok false => filter_info_field info_value (strip exp2)
    | _ => .error "ValueError: unpack"
  else if startsWith1 '<' threshold then
    if startsWith2 '<' '=' threshold then
      match parseFloat (threshold.drop 2) with
      | some t => .ok (info_value ≤ t)
      | none => .error "ValueError: float"
    else
      match parseFloat (threshold.drop 1) with
      | some t => .ok (info_value < t)
      | none => .error "ValueError: float"
  else if startsWith1 '>' threshold then
    if startsWith2 '>' '=' threshold then
      match parseFloat (threshold.drop 2) with
      | some t => .ok (info_value ≥ t)
      | none => .error "ValueError: float"
    else
      match parseFloat (threshold.drop 1) with
      | some t => .ok (info_value > t)
      | none => .error "ValueError: float"
  else
    .ok false
termination_by threshold.length
decreasing_by
  · have h := splitOnChar_two_length hsplit
    have := strip_length_le exp1
    omega
  · have h := splitOnChar_two_length hsplit
    have := strip_length_le exp2
    omega
  · have h := splitOnChar_two_length hsplit
    have := strip_length_le exp1
    omega
  · have h := splitOnChar_two_length hsplit
    have := strip_length_le exp2
    omega

/- ### Built-in biological predicates -/

/-- `VCF_mpileup_4dot1.is_polymorphic`: false iff `variant.ALT[0]` is
`None` or its string, stripped, equals `"."`. -/
def is_polymorphic (r : Record) : Bool :=
  match alt0 r with
  | none => false
  | some a => !(strip a = ['.'] : Bool)

/-- `VCF_mpileup_4dot1.is_indel`: true when `str(variant.ALT[0])`
contains a comma, or when `str(variant.REF[0])` — the *first character*
of REF — contains a comma, or when INFO carries a truthy `INDEL` value.
(Python would raise on an empty `REF`; VCF readers never produce one,
and an empty `REF` is mapped to `false` here.) -/
def is_indel (r : Record) : Bool :=
  (match alt0 r with
   | some a => hasChar a ','
   | none => false) ||
  (match r.REF.head? with
   | some c => c = ','
   | none => false) ||
  (match lookupInfo r.INFO "INDEL".data with
   | some v => truthy v
   | none => false)

/-- `VCF_mpileup_4dot1.is_valid_af1`: passes when `AF1` is absent;
otherwise fails a polymorphic record with `AF1 < minimum_af1` and a
non-polymorphic one with `AF1 > 1 - minimum_af1`.  A list-valued `AF1`
models Python's `TypeError` on comparison. -/
def is_valid_af1 (r : Record) (minimum_af1 : ℚ) : Except String Bool :=
  match lookupInfo r.INFO "AF1".data with
  | none => .ok true
  | some (.seq _) => .error "TypeError"
  | some v =>
    let af1 := scalarNum v
    if is_polymorphic r then
      if af1 < minimum_af1 then .ok false else .ok true
    else
      if af1 > 1 - minimum_af1 then .ok false else .ok true

/-- `VCF_mpileup_4dot1.is_valid_dp4`: passes when `DP4` is absent;
otherwise reads `DP4[0..3] = [ref_forward, ref_reverse, alt_forward,
alt_reverse]` (`Except.error` models the `IndexError`/`TypeError` when
`DP4` is not a list of at least four numbers), computes the per-strand
ratios (0 when the strand total is not positive), and checks depth,
per-strand depth and both ratios against the minima — on the ref counts
for a non-polymorphic record, on the alt counts otherwise. -/
def is_valid_dp4 (r : Record) (minimum_depth minimum_depth_strand minimum_ratio : ℚ) :
    Except String Bool :=
  match lookupInfo r.INFO "DP4".data with
  | none => .ok true
  | some (.scalar _) => .error "TypeError"
  | some (.flag _) => .error "TypeError"
  | some (.seq dp4) =>
    match dp4.get? 0, dp4.get? 1, dp4.get? 2, dp4.get? 3 with
    | some ref_forward, some ref_reverse, some alt_forward, some alt_reverse =>
      let count_reference := ref_forward + ref_reverse
      let count_alt := alt_forward + alt_reverse
      let forward := ref_forward + alt_forward
      let ratio_forward_reference := if forward > 0 then ref_forward / forward else 0
      let ratio_forward_alt := if forward > 0 then alt_forward / forward else 0
      let reverse := ref_reverse + alt_reverse
      let ratio_reverse_reference := if reverse > 0 then ref_reverse / reverse else 0
      let ratio_reverse_alt := if reverse > 0 then alt_reverse / reverse else 0
      if is_polymorphic r = false then
        if count_reference < minimum_depth then .ok false
        else if ref_forward < minimum_depth_strand then .ok false
        else if ref_reverse < minimum_depth_strand then .ok false
        else if ratio_forward_reference < minimum_ratio then .ok false
        else if ratio_reverse_reference < minimum_ratio then .ok false
        else .ok true
      else
        if count_alt < minimum_depth then .ok false
        else if alt_forward < minimum_depth_strand then .ok false
        else if alt_reverse < minimum_depth_strand then .ok false
        else if ratio_forward_alt < minimum_ratio then .ok false
        else if ratio_reverse_alt < minimum_ratio then .ok false
        else .ok true
    | _, _, _, _ => .error "IndexError"

/- ### The generic INFO-rule loop of `_filter_line` -/

/-- The bracket parsing done on a rule key before the `try` block of
`_filter_line`: a key with `[` but no `]` raises `ValueError`; otherwise
the key is split at the first `[`, the left part stripped, and the index
obtained by `int()` of the right part with every `]` removed and the
result stripped (a failing `int()` raises `ValueError`).  A key without
`[` keeps index 0. -/
def parseRuleKey (key : Str) : Except String (Str × Int) :=
  if hasChar key '[' then
    if !hasChar key ']' then .error "ValueError: invalid filter"
    else
      let p := splitFirstChar '[' key
      match parsePyInt (strip (removeChar ']' p.2)) with
      | none => .error "ValueError: int"
      | some index => .ok (strip p.1, index)
  else .ok (key, 0)

/-- Python list indexing `l[i]` with negative-index wraparound;
`none` models an `IndexError`. -/
def pyGet (l : List ℚ) (i : Int) : Option ℚ :=
  if 0 ≤ i then l.get? i.toNat
  else if 0 ≤ i + (l.length : Int) then l.get? (i + (l.length : Int)).toNat
  else none

/-- One term of the `eval`-ed expression `sum([t1,...,tn])` built by the
`sum(` branch of `_filter_line`: a term is `NAME` or `NAME[int]`; only
`mykey` is bound in the evaluation namespace, so any other name raises
`NameError`; a non-list value under an index, or a list value used bare,
raises `TypeError`; an out-of-range index raises `IndexError`; anything
else the Python parser would reject raises a syntax error. -/
def evalSumTerm (mykey : Str) (val : InfoValue) (t : Str) : Except String ℚ :=
  let t := strip t
  let name := t.takeWhile (fun c => c ≠ '[')
  if name ≠ mykey then .error "NameError"
  else if t = name then
    match val with
    | .scalar q => .ok q
    | .flag b => .ok (if b then 1 else 0)
    | .seq _ => .error "TypeError"
  else
    match splitOnChar ']' (t.drop (name.length + 1)) with
    | [digits, []] =>
      if allDigits digits && !digits.isEmpty then
        match val with
        | .seq l =>
          match l.get? (digitsToNat digits) with
          | some q => .ok q
          | none => .error "IndexError"
        | _ => .error "TypeError"
      else .error "SyntaxError"
    | _ => .error "SyntaxError"

/-- The `sum(` branch of `_filter_line` applied to a rule key starting
with `"sum("`: Python rewrites the key into `sum([ ... ])`, takes
`mykey` as the characters of the rewritten tail before the first `[`,
binds `locals()[mykey] = vcf_line.INFO[mykey]` — a missing key raises an
*uncaught* `KeyError` here — and `eval`s the sum of the comma-separated
terms. -/
def evalSum (r : Record) (key : Str) : Except String ℚ :=
  let inner := (key.drop 4).dropLast
  let mykey := (inner ++ "])".data).takeWhile (fun c => c ≠ '[')
  match lookupInfo r.INFO mykey with
  | none => .error "KeyError"
  | some val =>
    (splitOnChar ',' inner).foldl
      (fun acc t =>
        match acc with
        | .error e => .error e
        | .ok s =>
          match evalSumTerm mykey val t with
          | .error e => .error e
          | .ok q => .ok (s + q))
      (.ok 0)

/-- The `for key, value in filter_dict["INFO"].items()` loop of
`_filter_line`, in insertion order.  `PV4` on a non-polymorphic record
returns keep immediately; a `sum(` key evaluates the reducer and returns
discard/keep immediately; otherwise the key is bracket-parsed and the
value fetched inside `try`: a missing key (`KeyError`) is logged and the
loop continues, an index above `len-1` raises an uncaught `ValueError`,
and a failing comparison continues with the next rule. -/
def filterInfoRules (r : Record) : List (Str × Str) → Except String Bool
  | [] => .ok true
  | (key, value) :: rest =>
    if key = "PV4".data && !is_polymorphic r then .ok true
    else if startsWithStr "sum(".data key then
      match evalSum r key with
      | .error e => .error e
      | .ok result =>
        match filter_info_field result value with
        | .error e => .error e
        | .ok true => .ok false
        | .ok false => .ok true
    else
      match parseRuleKey key with
      | .error e => .error e
      | .ok (key2, index) =>
        match lookupInfo r.INFO key2 with
        | none => filterInfoRules r rest
        | some (.seq l) =>
          if (l.length : Int) - 1 < index then
            .error "ValueError: Index must be less than Nlist"
          else
            match pyGet l index with
            | none => .error "IndexError"
            | some x =>
              match filter_info_field x value with
              | .error e => .error e
              | .ok true => .ok false
              | .ok false => filterInfoRules r rest
        | some v =>
          match filter_info_field (scalarNum v) value with
          | .error e => .error e
          | .ok true => .ok false
          | .ok false => filterInfoRules r rest

/- ### Per-record decision and the pass -/

/-- `VCF_mpileup_4dot1._filter_line`: returns `false` (discard) on the
first failing check — QUAL threshold unless it is the `-1` sentinel,
then the indel filter if enabled, then DP4 if enabled and present,
then AF1 if enabled and present — and otherwise hands over to the
generic INFO-rule loop. -/
def filter_line (cfg : FilterConfig) (r : Record) : Except String Bool :=
  if cfg.qual ≠ -1 ∧ r.QUAL < cfg.qual then .ok false
  else if cfg.apply_indel_filter && is_indel r then .ok false
  else
    match (if cfg.apply_dp4_filter && (lookupInfo r.INFO "DP4".data).isSome then
             is_valid_dp4 r cfg.dp4_minimum_depth cfg.dp4_minimum_depth_strand
               cfg.dp4_minimum_ratio
           else Except.ok true) with
    | .error e => .error e
    | .ok false => .ok false
    | .ok true =>
      match (if cfg.apply_af1_filter && (lookupInfo r.INFO "AF1".data).isSome then
               is_valid_af1 r cfg.minimum_af1
             else Except.ok true) with
      | .error e => .error e
      | .ok false => .ok false
      | .ok true => filterInfoRules r cfg.infoRules

/-- The record loop of `filter_vcf`: number of records for which
`_filter_line` returned keep; a raised exception aborts the pass. -/
def countUnfiltered (cfg : FilterConfig) : List Record → Except String Nat
  | [] => .ok 0
  | r :: rest =>
    match filter_line cfg r with
    | .error e => .error e
    | .ok true =>
      match countUnfiltered cfg rest with
      | .error e => .error e
      | .ok n => .ok (n + 1)
    | .ok false => countUnfiltered cfg rest

/-- `VCF_mpileup_4dot1.filter_vcf` restricted to its counts: iterates
`_filter_line` over the records and returns
`{"N": N, "filtered": N - unfiltered, "unfiltered": unfiltered}`. -/
def filter_vcf (cfg : FilterConfig) (records : List Record) : Except String FilterResult :=
  let N := records.length
  match countUnfiltered cfg records with
  | .error e => .error e
  | .ok unfiltered => .ok ⟨N, N - unfiltered, unfiltered⟩

/- ### Specification-side decomposition (for the ordered-checks claim) -/

/-- Outcome of the QUAL check alone, per the spec: pass unless the
threshold is set (≠ −1 sentinel) and QUAL is strictly below it. -/
def qualCheck (cfg : FilterConfig) (r : Record) : Except String Bool :=
  .ok (!(cfg.qual ≠ -1 ∧ r.QUAL < cfg.qual : Bool))

/-- Outcome of the indel check alone: fail iff enabled and `is_indel`. -/
def indelCheck (cfg : FilterConfig) (r : Record) : Except String Bool :=
  .ok (!(cfg.apply_indel_filter && is_indel r))

/-- Outcome of the DP4 check alone: applies only when enabled and DP4
is present in INFO. -/
def dp4Check (cfg : FilterConfig) (r : Record) : Except String Bool :=
  if cfg.apply_dp4_filter && (lookupInfo r.INFO "DP4".data).isSome then
    is_valid_dp4 r cfg.dp4_minimum_depth cfg.dp4_minimum_depth_strand
      cfg.dp4_minimum_ratio
  else .ok true

/-- Outcome of the AF1 check alone: applies only when enabled and AF1
is present in INFO. -/
def af1Check (cfg : FilterConfig) (r : Record) : Except String Bool :=
  if cfg.apply_af1_filter && (lookupInfo r.INFO "AF1".data).isSome then
    is_valid_af1 r cfg.minimum_af1
  else .ok true

/-- Sequential composition of checks per the spec's fixed order: the
first failing (or raising) check decides; a record surviving every
check in the list is decided by `final`. -/
def firstFailure (checks : List (Except String Bool)) (final : Except String Bool) :
    Except String Bool :=
  match checks with
  | [] => final
  | c :: rest =>
    match c with
    | .error e => .error e
    | .ok false => .ok false
    | .ok true => firstFailure rest final

/- ### Further string lemmas -/

theorem hasChar_nil (c : Char) : hasChar [] c = false := rfl

theorem hasChar_cons (x : Char) (s : Str) (c : Char) :
    hasChar (x :: s) c = ((x = c : Bool) || hasChar s c) := by
  simp [hasChar]

theorem hasChar_append (a b : Str) (c : Char) :
    hasChar (a ++ b) c = (hasChar a c || hasChar b c) := by
  simp [hasChar, List.any_append]

theorem hasChar_eq_true {s : Str} {c : Char} : hasChar s c = true ↔ c ∈ s := by
  simp [hasChar]

theorem splitOnChar_of_not_has {c : Char} {s : Str} (h : hasChar s c = false) :
    splitOnChar c s = [s] := by
  induction s with
  | nil => rfl
  | cons x xs ih =>
    rw [hasChar_cons] at h
    simp only [Bool.or_eq_false_iff] at h
    obtain ⟨hx, hxs⟩ := h
    simp only [splitOnChar]
    rw [if_neg (by simpa using hx)]
    rw [ih hxs]

theorem splitOnChar_append_sep {c : Char} {X Y : Str} (h : hasChar X c = false) :
    splitOnChar c (X ++ c :: Y) = X :: splitOnChar c Y := by
  induction X with
  | nil => simp [splitOnChar]
  | cons x xs ih =>
    rw [hasChar_cons] at h
    simp only [Bool.or_eq_false_iff] at h
    obtain ⟨hx, hxs⟩ := h
    simp only [List.cons_append, splitOnChar]
    rw [if_neg (by simpa using hx)]
    simp only [List.append_eq]
    rw [ih hxs]

theorem splitOnChar_two {c : Char} {X Y : Str}
    (hX : hasChar X c = false) (hY : hasChar Y c = false) :
    splitOnChar c (X ++ c :: Y) = [X, Y] := by
  rw [splitOnChar_append_sep hX, splitOnChar_of_not_has hY]

theorem hasChar_cons_false {x : Char} {s : Str} {c : Char}
    (hx : x ≠ c) (h : hasChar s c = false) : hasChar (x :: s) c = false := by
  rw [hasChar_cons]
  simp [hx, h]

/- ### Claims about the threshold-expression evaluator -/

/-- C1 (amended): the engine performs no validation of rule expressions at
configuration time; a clause with no recognized leading comparator (no
`&`/`|` and starting with neither `<` nor `>`) simply evaluates to
`False` for every value at record-processing time, so the rule never
discards a record and no error is raised. -/
theorem malformed_clause_evaluates_false (v : ℚ) (s : Str)
    (hamp : hasChar s '&' = false) (hbar : hasChar s '|' = false)
    (hlt : startsWith1 '<' s = false) (hgt : startsWith1 '>' s = false) :
    filter_info_field v s = .ok false := by
  rw [filter_info_field.eq_def]
  simp [hamp, hbar, hlt, hgt]

theorem malformed_clause_evaluates_false_witness :
    hasChar "~30".data '&' = false ∧
    filter_info_field 30 "~30".data = .ok false :=
  ⟨by decide,
   malformed_clause_evaluates_false 30 "~30".data
     (by decide) (by decide) (by decide) (by decide)⟩

/-- C1 (counterexample): a filter spec holding the malformed rule
`DP ↦ "~30"` is not rejected — `_filter_line` processes a record under
it without any error and keeps the record, so the configuration error
the claim promises is never raised and a record *is* processed. -/
theorem malformed_rule_record_processed :
    filter_line { defaultConfig with infoRules := [("DP".data, "~30".data)] }
      ⟨50, "A".data, [some "T".data], [("DP".data, .scalar 35)]⟩ = .ok true := by
  simp [filter_line, defaultConfig, filterInfoRules, parseRuleKey, lookupInfo,
    startsWithStr, is_polymorphic, alt0, hasChar, scalarNum, strip, stripLeft, pyIsSpace,
    filter_info_field, startsWith1, startsWith2]

/-- C7: for every numeral string `s` denoting the threshold `t` (so
`float(s) = t`, with `s` free of `&`/`|` and not starting with `=`),
the single-clause expressions `"<"+s`, `"<="+s`, `">"+s`, `">="+s`
evaluate against a value `v` to `v < t`, `v ≤ t`, `v > t`, `v ≥ t`
respectively. -/
theorem comparator_clause_semantics (v t : ℚ) (s : Str)
    (hpf : parseFloat s = some t)
    (hamp : hasChar s '&' = false) (hbar : hasChar s '|' = false)
    (hne : s.head? ≠ some '=') :
    filter_info_field v ('<' :: s) = .ok (decide (v < t)) ∧
    filter_info_field v ('<' :: '=' :: s) = .ok (decide (v ≤ t)) ∧
    filter_info_field v ('>' :: s) = .ok (decide (v > t)) ∧
    filter_info_field v ('>' :: '=' :: s) = .ok (decide (v ≥ t)) := by
  obtain ⟨a, as, rfl⟩ : ∃ a as, s = a :: as := by
    cases s with
    | nil => simp [parseFloat, parseDecimal, splitOnChar, allDigits] at hpf
    | cons a as => exact ⟨a, as, rfl⟩
  have ha : a ≠ '=' := by
    intro h
    exact hne (by simp [h])
  refine ⟨?_, ?_, ?_, ?_⟩
  · rw [filter_info_field.eq_def]
    rw [hasChar_cons_false (by decide) hamp, hasChar_cons_false (by decide) hbar]
    simp [startsWith1, startsWith2, ha, hpf]
  · rw [filter_info_field.eq_def]
    rw [hasChar_cons_false (by decide) (hasChar_cons_false (by decide) hamp),
        hasChar_cons_false (by decide) (hasChar_cons_false (by decide) hbar)]
    simp [startsWith1, startsWith2, hpf]
  · rw [filter_info_field.eq_def]
    rw [hasChar_cons_false (by decide) hamp, hasChar_cons_false (by decide) hbar]
    simp [startsWith1, startsWith2, ha, hpf]
  · rw [filter_info_field.eq_def]
    rw [hasChar_cons_false (by decide) (hasChar_cons_false (by decide) hamp),
        hasChar_cons_false (by decide) (hasChar_cons_false (by decide) hbar)]
    simp [startsWith1, startsWith2, hpf]

theorem comparator_clause_semantics_witness :
    filter_info_field 5 "<30".data = .ok true ∧
    filter_info_field 5 "<=30".data = .ok true ∧
    filter_info_field 5 ">30".data = .ok false ∧
    filter_info_field 5 ">=30".data = .ok false := by
  have h := comparator_clause_semantics 5 30 "30".data
    (by rfl) (by decide) (by decide) (by decide)
  refine ⟨?_, ?_, ?_, ?_⟩
  · simpa using h.1
  · simpa using h.2.1
  · simpa using h.2.2.1
  · simpa using h.2.2.2

/-- C8 (amended): for subexpressions `X` and `Y` that contain neither
`&` nor `|` and carry no leading/trailing whitespace, evaluating
`"X&Y"` against a value is the conjunction of the two sub-evaluations
and `"X|Y"` the disjunction.  (For general subexpressions this fails:
the implementation splits on *every* occurrence of the operator and
unpacks exactly two parts, and strips each side.) -/
theorem and_or_composition (v : ℚ) (X Y : Str) (a b : Bool)
    (hXa : hasChar X '&' = false) (hXo : hasChar X '|' = false)
    (hYa : hasChar Y '&' = false) (hYo : hasChar Y '|' = false)
    (hsX : strip X = X) (hsY : strip Y = Y)
    (hX : filter_info_field v X = .ok a) (hY : filter_info_field v Y = .ok b) :
    filter_info_field v (X ++ '&' :: Y) = .ok (a && b) ∧
    filter_info_field v (X ++ '|' :: Y) = .ok (a || b) := by
  constructor
  · have hand : hasChar (X ++ '&' :: Y) '&' = true := by
      rw [hasChar_append, hasChar_cons]
      simp
    rw [filter_info_field.eq_def, hand]
    rw [splitOnChar_two hXa hYa]
    simp only [if_true]
    rw [hsX, hsY, hX]
    cases b with
    | false =>
      cases a with
      | false => simp
      | true => simp [hY]
    | true =>
      cases a with
      | false => simp
      | true => simp [hY]
  · have hor1 : hasChar (X ++ '|' :: Y) '&' = false := by
      rw [hasChar_append, hasChar_cons]
      simp [hXa, hYa]
    have hor2 : hasChar (X ++ '|' :: Y) '|' = true := by
      rw [hasChar_append, hasChar_cons]
      simp
    rw [filter_info_field.eq_def, hor1, hor2]
    rw [splitOnChar_two hXo hYo]
    simp only [if_true, Bool.false_eq_true, if_false]
    rw [hsX, hsY, hX]
    cases a with
    | false => simp [hY]
    | true => simp

theorem and_or_composition_witness :
    filter_info_field 5 "<10&>1".data = .ok true ∧
    filter_info_field 5 "<10|>1".data = .ok true := by
  have h := and_or_composition 5 "<10".data ">1".data true true
    (by decide) (by decide) (by decide) (by decide) (by decide) (by decide)
    (by simp [filter_info_field, hasChar, startsWith1, startsWith2,
          parseFloat, parseDecimal, splitOnChar, allDigits, digitsToNat]
        norm_num)
    (by simp [filter_info_field, hasChar, startsWith1, startsWith2,
          parseFloat, parseDecimal, splitOnChar, allDigits, digitsToNat])
  exact ⟨by simpa using h.1, by simpa using h.2⟩

set_option maxHeartbeats 1000000 in
theorem and_composition_fails_on_nested_amp :
    filter_info_field 0 "<1&<2&<3".data = .error "ValueError: unpack" ∧
    filter_info_field 0 "<1&<2".data = .ok true ∧
    filter_info_field 0 "<3".data = .ok true := by
  refine ⟨?_, ?_, ?_⟩ <;>
    simp [filter_info_field, hasChar, startsWith1, startsWith2, parseFloat,
      parseDecimal, splitOnChar, allDigits, digitsToNat, strip, stripLeft, pyIsSpace]

/- ### Claims about per-record anomaly handling -/

/-- C2 (amended): a missing INFO key referenced by a plain or indexed
rule key is caught (`except KeyError`): the rule is skipped for that
record and the loop continues with the remaining rules.  But an index
out of bounds for a sequence-valued key raises an *uncaught*
`ValueError` that aborts the pass. -/
theorem missing_key_skips_rule_but_bad_index_aborts
    (r : Record) (key value : Str) (rest : List (Str × Str)) (key2 : Str) (index : Int)
    (hpv : (key = "PV4".data && !is_polymorphic r) = false)
    (hsum : startsWithStr "sum(".data key = false)
    (hparse : parseRuleKey key = .ok (key2, index)) :
    (lookupInfo r.INFO key2 = none →
       filterInfoRules r ((key, value) :: rest) = filterInfoRules r rest) ∧
    (∀ l, lookupInfo r.INFO key2 = some (.seq l) → (l.length : Int) - 1 < index →
       filterInfoRules r ((key, value) :: rest) =
         .error "ValueError: Index must be less than Nlist") := by
  constructor
  · intro hnone
    simp only [filterInfoRules, hpv, hsum, hparse, hnone, Bool.false_eq_true,
      if_false]
  · intro l hl hlen
    simp only [filterInfoRules, hpv, hsum, hparse, hl, Bool.false_eq_true, if_false]
    rw [if_pos hlen]

theorem missing_key_skips_rule_but_bad_index_aborts_witness :
    filterInfoRules ⟨50, "A".data, [some "T".data], []⟩
      [("MQ".data, "<30".data)] = .ok true := by
  have h := missing_key_skips_rule_but_bad_index_aborts
    ⟨50, "A".data, [some "T".data], []⟩ "MQ".data "<30".data [] "MQ".data 0
    (by decide) (by decide) rfl
  rw [h.1 rfl]
  rfl

/-- C2 (counterexample): per-record anomalies *can* propagate as
exceptions and abort the pass: an index out of bounds for the
sequence-valued key `DP4` (rule `DP4[10]`) raises an uncaught
`ValueError`, and a missing INFO key inside a `sum(...)` reducer key
raises an uncaught `KeyError`. -/
theorem record_anomalies_can_abort_pass :
    filter_line { defaultConfig with infoRules := [("DP4[10]".data, "<5".data)] }
      ⟨50, "A".data, [some "T".data], [("DP4".data, .seq [1, 2, 3, 4])]⟩ =
      .error "ValueError: Index must be less than Nlist" ∧
    filter_line { defaultConfig with infoRules := [("sum(DP4[0],DP4[1])".data, "<5".data)] }
      ⟨50, "A".data, [some "T".data], []⟩ = .error "KeyError" := by
  constructor
  · simp [filter_line, defaultConfig, filterInfoRules, parseRuleKey, hasChar,
      splitFirstChar, removeChar, strip, stripLeft, pyIsSpace, parsePyInt, allDigits,
      digitsToNat, lookupInfo, startsWithStr, is_polymorphic, alt0]
  · simp [filter_line, defaultConfig, filterInfoRules, evalSum, lookupInfo,
      startsWithStr, is_polymorphic, alt0]

/- ### Claim C3 : the fixed order of checks -/

/-- C3 (amended): the per-record decision is the sequential composition,
in this fixed order, of the QUAL check, the indel check, the DP4 check
(when enabled and applicable) and the AF1 check (when enabled and
applicable), with the first failing check short-circuiting to discard,
followed by the generic INFO rules in configuration-insertion order —
except that inside the rule loop a `sum(...)` rule returns a verdict
immediately (keep when it passes, skipping every later rule) and a
`PV4` rule on a non-polymorphic record immediately keeps the record;
a plain scalar rule discards on match and otherwise falls through to
the next rule. -/
theorem ordered_checks_decomposition :
    (∀ (cfg : FilterConfig) (r : Record),
       filter_line cfg r =
         firstFailure [qualCheck cfg r, indelCheck cfg r, dp4Check cfg r, af1Check cfg r]
           (filterInfoRules r cfg.infoRules)) ∧
    (∀ (r : Record) (key value : Str) (rest : List (Str × Str)) (res : ℚ),
       (key = "PV4".data && !is_polymorphic r) = false →
       startsWithStr "sum(".data key = true →
       evalSum r key = .ok res →
       (filter_info_field res value = .ok false →
          filterInfoRules r ((key, value) :: rest) = .ok true) ∧
       (filter_info_field res value = .ok true →
          filterInfoRules r ((key, value) :: rest) = .ok false)) ∧
    (∀ (r : Record) (key value : Str) (rest : List (Str × Str)) (key2 : Str)
       (index : Int) (q : ℚ),
       (key = "PV4".data && !is_polymorphic r) = false →
       startsWithStr "sum(".data key = false →
       parseRuleKey key = .ok (key2, index) →
       lookupInfo r.INFO key2 = some (.scalar q) →
       (filter_info_field q value = .ok true →
          filterInfoRules r ((key, value) :: rest) = .ok false) ∧
       (filter_info_field q value = .ok false →
          filterInfoRules r ((key, value) :: rest) = filterInfoRules r rest)) ∧
    (∀ (r : Record) (value : Str) (rest : List (Str × Str)),
       is_polymorphic r = false →
       filterInfoRules r (("PV4".data, value) :: rest) = .ok true) := by
  refine ⟨?_, ?_, ?_, ?_⟩
  · intro cfg r
    simp only [filter_line]
    have hD : (if cfg.apply_dp4_filter && (lookupInfo r.INFO "DP4".data).isSome then
        is_valid_dp4 r cfg.dp4_minimum_depth cfg.dp4_minimum_depth_strand
          cfg.dp4_minimum_ratio
      else Except.ok true) = dp4Check cfg r := rfl
    have hA : (if cfg.apply_af1_filter && (lookupInfo r.INFO "AF1".data).isSome then
        is_valid_af1 r cfg.minimum_af1 else Except.ok true) = af1Check cfg r := rfl
    rw [hD, hA]
    by_cases hq : cfg.qual ≠ -1 ∧ r.QUAL < cfg.qual
    · simp [firstFailure, qualCheck, hq]
    · rw [if_neg hq]
      simp only [firstFailure, qualCheck, indelCheck]
      rw [decide_eq_false hq]
      simp only [Bool.not_false]
      cases hi : (cfg.apply_indel_filter && is_indel r) with
      | true => simp
      | false =>
        simp only [Bool.not_true, Bool.false_eq_true, if_false]
        cases hDv : dp4Check cfg r with
        | error e => simp
        | ok status =>
          cases status with
          | false => simp
          | true =>
            simp only []
            cases hAv : af1Check cfg r with
            | error e => simp
            | ok status2 => cases status2 <;> simp
  · intro r key value rest res hpv hsum hev
    constructor
    · intro hfi
      simp only [filterInfoRules, hpv, hsum, hev, hfi, Bool.false_eq_true, if_false,
        if_true]
    · intro hfi
      simp only [filterInfoRules, hpv, hsum, hev, hfi, Bool.false_eq_true, if_false,
        if_true]
  · intro r key value rest key2 index q hpv hsum hparse hlook
    constructor
    · intro hfi
      simp only [filterInfoRules, hpv, hsum, hparse, hlook, scalarNum, hfi,
        Bool.false_eq_true, if_false]
    · intro hfi
      simp only [filterInfoRules, hpv, hsum, hparse, hlook, scalarNum, hfi,
        Bool.false_eq_true, if_false]
  · intro r value rest hpoly
    simp only [filterInfoRules, hpoly]
    simp

theorem ordered_checks_decomposition_witness :
    filterInfoRules ⟨50, "A".data, [some "T".data], [("DP4".data, .seq [5, 5, 0, 0])]⟩
      [("sum(DP4[0],DP4[1])".data, "<1".data)] = .ok true := by
  have h := ordered_checks_decomposition.2.1
    ⟨50, "A".data, [some "T".data], [("DP4".data, .seq [5, 5, 0, 0])]⟩
    "sum(DP4[0],DP4[1])".data "<1".data [] 10 (by decide) (by decide)
    (by simp [evalSum, lookupInfo, splitOnChar, evalSumTerm, strip, stripLeft,
          pyIsSpace, allDigits, digitsToNat]
        norm_num)
  exact h.1 (by
    simp [filter_info_field, hasChar, startsWith1, startsWith2, parseFloat,
      parseDecimal, splitOnChar, allDigits, digitsToNat])

/-- C3 (counterexample): a kept record can have configured generic INFO
rules that were never applied: with the rule list
`[sum(DP4[0],DP4[1]) ↦ "<1", DP ↦ "<100"]` the first (passing) `sum`
rule returns keep immediately, although the second rule alone would
discard the record. -/
theorem passing_sum_rule_skips_later_rules :
    filter_line { defaultConfig with
        infoRules := [("sum(DP4[0],DP4[1])".data, "<1".data), ("DP".data, "<100".data)] }
      ⟨50, "A".data, [some "T".data],
        [("DP4".data, .seq [5, 5, 0, 0]), ("DP".data, .scalar 50)]⟩ = .ok true ∧
    filter_line { defaultConfig with infoRules := [("DP".data, "<100".data)] }
      ⟨50, "A".data, [some "T".data],
        [("DP4".data, .seq [5, 5, 0, 0]), ("DP".data, .scalar 50)]⟩ = .ok false := by
  constructor
  · simp [filter_line, defaultConfig, filterInfoRules, evalSum, lookupInfo,
      startsWithStr, is_polymorphic, alt0, strip, stripLeft, pyIsSpace, splitOnChar,
      evalSumTerm, allDigits, digitsToNat, filter_info_field, hasChar, startsWith1,
      startsWith2, parseFloat, parseDecimal]
    norm_num
  · simp [filter_line, defaultConfig, filterInfoRules, parseRuleKey, lookupInfo,
      startsWithStr, is_polymorphic, alt0, hasChar, scalarNum, filter_info_field,
      startsWith1, startsWith2, parseFloat, parseDecimal, splitOnChar, allDigits,
      digitsToNat]
    norm_num

/- ### Claim C4 : the indel filter -/

/-- C4 (amended): `is_indel` holds exactly when the first ALT allele's
string contains a comma, or the *first character* of REF is a comma, or
INFO carries a truthy `INDEL` value; with the indel filter enabled, a
record recognized by `is_indel` is discarded (once past the QUAL check).
A record whose REF is the multi-allele list `"A,AT"` is *not*
recognized, because only REF's first character is examined. -/
theorem indel_filter_characterization :
    (∀ r : Record,
       is_indel r = true ↔
         ((∃ a, alt0 r = some a ∧ ',' ∈ a) ∨ r.REF.head? = some ',' ∨
          (∃ v, lookupInfo r.INFO "INDEL".data = some v ∧ truthy v = true))) ∧
    (∀ (cfg : FilterConfig) (r : Record),
       cfg.apply_indel_filter = true → ¬(cfg.qual ≠ -1 ∧ r.QUAL < cfg.qual) →
       is_indel r = true → filter_line cfg r = .ok false) := by
  constructor
  · intro r
    cases ha : alt0 r <;> cases hh : r.REF.head? <;>
      cases hl : lookupInfo r.INFO "INDEL".data <;>
        simp [is_indel, ha, hh, hl, hasChar_eq_true, or_assoc]
  · intro cfg r hen hq hind
    simp only [filter_line]
    rw [if_neg hq]
    simp [hen, hind]

theorem indel_filter_characterization_witness :
    filter_line { defaultConfig with apply_indel_filter := true }
      ⟨5, ",A".data, [some "T".data], []⟩ = .ok false := by
  apply indel_filter_characterization.2
  · rfl
  · simp [defaultConfig]
  · rfl

/-- C4 (counterexample): a record with `REF="A,AT"` (a comma-separated
multi-allele REF) is *not* discarded by the enabled indel filter: the
code inspects only `REF[0]`, the first character. -/
theorem ref_multiallele_not_discarded :
    is_indel ⟨50, "A,AT".data, [some "T".data], []⟩ = false ∧
    filter_line { defaultConfig with apply_indel_filter := true }
      ⟨50, "A,AT".data, [some "T".data], []⟩ = .ok true := by
  constructor
  · rfl
  · simp [filter_line, defaultConfig, is_indel, alt0, hasChar, lookupInfo,
      filterInfoRules]

/- ### Claim C5 : the DP4 filter -/

/-- Per-strand ratio as the spec words it: 0 when the denominator is 0. -/
def ratio0 (x d : ℚ) : ℚ := if d = 0 then 0 else x / d

theorem ratio_code_eq_ratio0 {x a b : ℚ} (ha : 0 ≤ a) (hb : 0 ≤ b) :
    (if a + b > 0 then x / (a + b) else 0) = ratio0 x (a + b) := by
  unfold ratio0
  by_cases h : a + b = 0
  · simp [h]
  · have hpos : a + b > 0 := lt_of_le_of_ne (by linarith) (Ne.symm h)
    simp [h, hpos]

theorem chain5 (c1 c2 c3 c4 c5 : Prop)
    [Decidable c1] [Decidable c2] [Decidable c3] [Decidable c4] [Decidable c5] :
    (if c1 then (Except.ok false : Except String Bool)
     else if c2 then .ok false else if c3 then .ok false
     else if c4 then .ok false else if c5 then .ok false else .ok true) = .ok true ↔
    (¬c1 ∧ ¬c2 ∧ ¬c3 ∧ ¬c4 ∧ ¬c5) := by
  split_ifs <;> simp_all

/-- C5: with `DP4 = [ref_fwd, ref_rev, alt_fwd, alt_rev]` present (counts
non-negative), a polymorphic record passes `is_valid_dp4` iff the alt
counts meet the depth, per-strand depth and ratio minima, and a
non-polymorphic record iff the ref counts do, the per-strand ratios
taken as 0 when their denominator is 0; absence of `DP4` means the
filter passes; and on the non-polymorphic example `DP4=[10,10,1,1]`
the record is kept under `min_depth=4, min_depth_strand=2,
min_ratio=0.75` and discarded under `min_ratio=0.95`. -/
theorem dp4_filter_characterization :
    (∀ (r : Record) (md ms mr rf rr af ar : ℚ),
       0 ≤ rf → 0 ≤ rr → 0 ≤ af → 0 ≤ ar →
       lookupInfo r.INFO "DP4".data = some (.seq [rf, rr, af, ar]) →
       (is_valid_dp4 r md ms mr = .ok true ↔
         (if is_polymorphic r = true then
            md ≤ af + ar ∧ ms ≤ af ∧ ms ≤ ar ∧
            mr ≤ ratio0 af (rf + af) ∧ mr ≤ ratio0 ar (rr + ar)
          else
            md ≤ rf + rr ∧ ms ≤ rf ∧ ms ≤ rr ∧
            mr ≤ ratio0 rf (rf + af) ∧ mr ≤ ratio0 rr (rr + ar)))) ∧
    (∀ (r : Record) (md ms mr : ℚ), lookupInfo r.INFO "DP4".data = none →
       is_valid_dp4 r md ms mr = .ok true) ∧
    is_valid_dp4 ⟨50, "A".data, [none], [("DP4".data, .seq [10, 10, 1, 1])]⟩
      4 2 (3 / 4) = .ok true ∧
    is_valid_dp4 ⟨50, "A".data, [none], [("DP4".data, .seq [10, 10, 1, 1])]⟩
      4 2 (19 / 20) = .ok false := by
  refine ⟨?_, ?_, ?_, ?_⟩
  · intro r md ms mr rf rr af ar h1 h2 h3 h4 hlook
    simp only [is_valid_dp4, hlook, List.get?]
    rw [ratio_code_eq_ratio0 (x := rf) h1 h3, ratio_code_eq_ratio0 (x := af) h1 h3,
        ratio_code_eq_ratio0 (x := rr) h2 h4, ratio_code_eq_ratio0 (x := ar) h2 h4]
    cases hp : is_polymorphic r with
    | false =>
      simp only [hp, Bool.false_eq_true, if_false, if_true]
      rw [chain5]
      simp [not_lt]
    | true =>
      simp only [hp, Bool.true_eq_false, if_false, if_true]
      rw [chain5]
      simp [not_lt]
  · intro r md ms mr hlook
    simp [is_valid_dp4, hlook]
  · simp [is_valid_dp4, lookupInfo, is_polymorphic, alt0]
    norm_num
  · simp [is_valid_dp4, lookupInfo, is_polymorphic, alt0]
    norm_num

theorem dp4_filter_characterization_witness :
    is_valid_dp4 ⟨50, "A".data, [none], [("DP4".data, .seq [10, 10, 1, 1])]⟩
      4 2 (1 / 2) = .ok true := by
  have h := dp4_filter_characterization.1
    ⟨50, "A".data, [none], [("DP4".data, .seq [10, 10, 1, 1])]⟩
    4 2 (1 / 2) 10 10 1 1 (by norm_num) (by norm_num) (by norm_num) (by norm_num) rfl
  rw [h]
  norm_num [is_polymorphic, alt0, ratio0]

/- ### Claim C6 : the AF1 filter -/

/-- C6: with a scalar `AF1` present in INFO, a polymorphic record
(first ALT allele non-null and, stripped, not `"."`) passes
`is_valid_af1` iff `AF1 ≥ min_af1`, and a non-polymorphic record iff
`AF1 ≤ 1 - min_af1`; absence of `AF1` means the check passes. -/
theorem af1_filter_characterization :
    (∀ (r : Record) (m q : ℚ),
       lookupInfo r.INFO "AF1".data = some (.scalar q) →
       (is_valid_af1 r m = .ok true ↔
         (if is_polymorphic r = true then q ≥ m else q ≤ 1 - m))) ∧
    (∀ (r : Record) (m : ℚ), lookupInfo r.INFO "AF1".data = none →
       is_valid_af1 r m = .ok true) ∧
    (∀ r : Record,
       is_polymorphic r = true ↔ ∃ a, alt0 r = some a ∧ strip a ≠ ['.']) := by
  refine ⟨?_, ?_, ?_⟩
  · intro r m q hlook
    simp only [is_valid_af1, hlook, scalarNum]
    cases hp : is_polymorphic r with
    | false =>
      simp only [hp, Bool.false_eq_true, if_false]
      split_ifs with h
      · simp
        linarith
      · simp [not_lt] at h
        simp [h]
    | true =>
      simp only [hp, if_true]
      split_ifs with h
      · simp
        linarith
      · simp [not_lt] at h
        simp [h, ge_iff_le]
  · intro r m hlook
    simp [is_valid_af1, hlook]
  · intro r
    cases ha : alt0 r <;> simp [is_polymorphic, ha]

theorem af1_filter_characterization_witness :
    is_valid_af1 ⟨50, "A".data, [some "T".data], [("AF1".data, .scalar (99 / 100))]⟩
      (19 / 20) = .ok true := by
  have h := af1_filter_characterization.1
    ⟨50, "A".data, [some "T".data], [("AF1".data, .scalar (99 / 100))]⟩
    (19 / 20) (99 / 100) rfl
  rw [h]
  norm_num [is_polymorphic, alt0, strip, stripLeft, pyIsSpace]
  decide

/- ### Claim C9 : count invariant of the pass -/

theorem countUnfiltered_le (cfg : FilterConfig) :
    ∀ (l : List Record) (u : Nat), countUnfiltered cfg l = .ok u → u ≤ l.length := by
  intro l
  induction l with
  | nil =>
    intro u h
    simp [countUnfiltered] at h
    omega
  | cons r rest ih =>
    intro u h
    simp only [countUnfiltered] at h
    cases hf : filter_line cfg r with
    | error e => rw [hf] at h; simp at h
    | ok keep =>
      rw [hf] at h
      cases keep with
      | true =>
        cases hc : countUnfiltered cfg rest with
        | error e => rw [hc] at h; simp at h
        | ok n =>
          rw [hc] at h
          simp at h
          have := ih n hc
          simp [← h]
          omega
      | false =>
        have := ih u h
        simp
        omega

/-- C9: every completed filtering pass returns counts satisfying
`unfiltered + filtered = N` with `N` the number of input records. -/
theorem filter_vcf_counts_add_up (cfg : FilterConfig) (records : List Record)
    (res : FilterResult) (h : filter_vcf cfg records = .ok res) :
    res.unfiltered + res.filtered = res.N ∧ res.N = records.length := by
  unfold filter_vcf at h
  cases hc : countUnfiltered cfg records with
  | error e => rw [hc] at h; simp at h
  | ok u =>
    rw [hc] at h
    simp only [Except.ok.injEq] at h
    have hu := countUnfiltered_le cfg records u hc
    subst h
    constructor
    · simp
      omega
    · rfl

theorem filter_vcf_counts_add_up_witness :
    (FilterResult.mk 1 0 1).unfiltered + (FilterResult.mk 1 0 1).filtered =
      (FilterResult.mk 1 0 1).N ∧
    (FilterResult.mk 1 0 1).N =
      [(⟨50, "A".data, [some "T".data], []⟩ : Record)].length :=
  filter_vcf_counts_add_up defaultConfig [⟨50, "A".data, [some "T".data], []⟩]
    ⟨1, 0, 1⟩ rfl

/- ### Claim C10 : the QUAL sentinel -/

/-- C10: the QUAL check uses `-1` as the "unset" sentinel: a record is
discarded by it iff the configured threshold differs from `-1` and the
record's QUAL is strictly below it; a record whose QUAL equals the
threshold passes the check, and threshold `-1` disables QUAL filtering. -/
theorem qual_sentinel (cfg : FilterConfig) (r : Record) (t : ℚ) :
    (cfg.qual ≠ -1 → r.QUAL < cfg.qual → filter_line cfg r = .ok false) ∧
    (filter_line { defaultConfig with qual := t } r = .ok true ↔
       ¬(t ≠ -1 ∧ r.QUAL < t)) ∧
    (r.QUAL = t → filter_line { defaultConfig with qual := t } r = .ok true) ∧
    (filter_line { defaultConfig with qual := -1 } r = .ok true) := by
  have hbase : ∀ s : ℚ, ¬(s ≠ -1 ∧ r.QUAL < s) →
      filter_line { defaultConfig with qual := s } r = .ok true := by
    intro s hs
    simp only [filter_line, defaultConfig]
    rw [if_neg hs]
    simp [filterInfoRules]
  have hdisc : ∀ s : ℚ, (s ≠ -1 ∧ r.QUAL < s) →
      filter_line { defaultConfig with qual := s } r = .ok false := by
    intro s hs
    simp only [filter_line, defaultConfig]
    rw [if_pos hs]
  refine ⟨?_, ?_, ?_, ?_⟩
  · intro h1 h2
    simp only [filter_line]
    rw [if_pos ⟨h1, h2⟩]
  · constructor
    · intro hok hcond
      have hf := hdisc t hcond
      rw [hf] at hok
      simp at hok
    · exact hbase t
  · intro hq
    apply hbase
    intro hcond
    exact absurd hcond.2 (by rw [hq]; exact lt_irrefl t)
  · apply hbase
    intro hcond
    exact hcond.1 rfl

theorem qual_sentinel_witness :
    filter_line { defaultConfig with qual := 40 } ⟨30, "A".data, [some "T".data], []⟩ =
      .ok false ∧
    filter_line { defaultConfig with qual := -1 } ⟨30, "A".data, [some "T".data], []⟩ =
      .ok true := by
  constructor
  · exact (qual_sentinel { defaultConfig with qual := 40 }
      ⟨30, "A".data, [some "T".data], []⟩ 40).1 (by norm_num [defaultConfig])
      (by norm_num [defaultConfig])
  · exact (qual_sentinel defaultConfig ⟨30, "A".data, [some "T".data], []⟩ 0).2.2.2
